import Mathlib

/-!
Verification of the Certora Analyzer server (scripts/certora_auto_server.mjs,
scripts/get_failed_rules.mjs) against its natural-language specification.

The development shallowly embeds the server logic: each HTTP handler is
modelled as a pure function from an abstract request/process trace to the
list of push-protocol events it writes, and the pure helper functions
(URL matching, rule-tree collection, dedup and sort) are translated
directly from the JavaScript source.
-/

namespace CertoraServer

/-- Event types of the push protocol (SSE frames). Every frame written by
the server carries a type tag and a message; the terminal complete frame
carries no message in the source and is modelled with an empty message. -/
inductive EventType where
  | info
  | output
  | error
  | success
  | url
  | final
  | status
  | complete
deriving DecidableEq, Repr

/-- One push-protocol frame, as written by the sendProgress helper of the
server: an object with a type and a message. -/
structure Event where
  type : EventType
  message : String
deriving DecidableEq, Repr

/-- Number of complete frames in an event list. -/
def completeCount (es : List Event) : Nat :=
  (es.filter (fun e => e.type == EventType.complete)).length

/-- True of event types that the mid-process handlers (stdout, stderr,
spawn-error) can produce; the terminal types success, final and complete
are only produced by the close handlers. -/
def midType (t : EventType) : Bool :=
  match t with
  | .info => true
  | .output => true
  | .error => true
  | .url => true
  | _ => false

/-! ## String scanning helpers (substring search, as used by the source) -/

/-- Whether the character list cs begins with the pattern pat. -/
def startsWithChars (pat cs : List Char) : Bool :=
  cs.take pat.length == pat

/-- Leftmost index at which pat occurs inside cs, as String.indexOf of
JavaScript: none when there is no occurrence. -/
def findSubIdx (pat : List Char) : List Char → Option Nat
  | [] => if startsWithChars pat [] then some 0 else none
  | c :: cs =>
    if startsWithChars pat (c :: cs) then some 0
    else (findSubIdx pat cs).map (· + 1)

/-- Whether pat occurs as a substring of s. -/
def containsSub (pat s : String) : Bool :=
  (findSubIdx pat.data s.data).isSome

/-! ## Result-URL matching

The /fix-all-stream stdout handler runs
output.match of the pattern https
colon slash slash prover.certora.com/output/ followed by one or more
non-whitespace characters, which in JavaScript yields the leftmost match
of the text. -/

/-- The literal part of the result-URL pattern. -/
def certoraUrlLit : List Char :=
  ("https://prover.certora.com/output/").data

/-- The match of the result-URL regular expression anchored at the start
of cs: the literal must occur at position 0 and at least one further
non-whitespace character must follow; the match is the maximal
whitespace-free run (the literal itself is whitespace-free, so the greedy
tail and the run from position 0 coincide). -/
def urlMatchAt (cs : List Char) : Option String :=
  if startsWithChars certoraUrlLit cs then
    let run := cs.takeWhile (fun c => !c.isWhitespace)
    if certoraUrlLit.length < run.length then some (String.mk run) else none
  else none

/-- The leftmost result-URL match in cs: JavaScript String.match without
the global flag. -/
def firstUrlMatch : List Char → Option String
  | [] => none
  | c :: cs =>
    match urlMatchAt (c :: cs) with
    | some m => some m
    | none => firstUrlMatch cs

/-- The match of the result-URL pattern at the greatest starting position:
this is the definition the specification describes (the last occurrence in
the text is authoritative); it is stated here only to be compared with
firstUrlMatch, which is what the source computes. -/
def lastUrlMatch : List Char → Option String
  | [] => none
  | c :: cs =>
    match lastUrlMatch cs with
    | some m => some m
    | none => urlMatchAt (c :: cs)

/-! ## Rule tree collection (collectFailedRuleOutputs)

Translated from scripts/get_failed_rules.mjs lines 63-100 and the
identical copy in scripts/certora_auto_server.mjs lines 140-175. -/

/-- The run metadata parsed from the report URL (parseRunInfo). -/
structure RunInfo where
  origin : String
  runId : String
  outputId : String
  anonymousKey : String
deriving DecidableEq, Repr

/-- One collected entry for a non-VERIFIED rule output file. -/
structure FailedRule where
  ruleName : String
  status : String
  outputFile : String
  url : String
deriving DecidableEq, Repr

/-- A node of the verification-progress rule tree. Absent name or status
fields are coerced to the empty string by the source; output entries that
are not strings are skipped by a typeof check and are therefore modelled
as strings. -/
inductive RuleNode where
  | mk (name : String) (status : String) (output : List String) (children : List RuleNode)

/-- Name field of a node. -/
def RuleNode.name : RuleNode → String
  | .mk n _ _ _ => n

/-- Status field of a node. -/
def RuleNode.status : RuleNode → String
  | .mk _ s _ _ => s

/-- Output file list of a node. -/
def RuleNode.output : RuleNode → List String
  | .mk _ _ o _ => o

/-- Children of a node. -/
def RuleNode.children : RuleNode → List RuleNode
  | .mk _ _ _ c => c

/-- The anchored regular expression rule_output_ digits .json of the
source: the name must be rule_output_, then one or more decimal digits,
then exactly .json. -/
def isRuleOutputName (s : String) : Bool :=
  let cs := s.data
  let pre := ("rule_output_").data
  let suf := (".json").data
  if startsWithChars pre cs then
    let rest := cs.drop pre.length
    let ds := rest.takeWhile Char.isDigit
    !ds.isEmpty && (rest.drop ds.length == suf)
  else false

/-- String.prototype.toUpperCase of JavaScript, at the ASCII level of
the status strings at play: uppercase every character. -/
def jsToUpperCase (s : String) : String :=
  String.mk (s.data.map Char.toUpper)

/-- URL built for a collected output file: baseUrl is
origin/result/runId/outputId and the query carries anonymousKey first when
non-empty, then the output file name. The percent-encoding applied by
URLSearchParams is not modelled; no claim depends on the url field. -/
def buildRuleUrl (ri : RunInfo) (outputFile : String) : String :=
  ri.origin ++ "/result/" ++ ri.runId ++ "/" ++ ri.outputId ++ "?" ++
    (if ri.anonymousKey ≠ "" then "anonymousKey=" ++ ri.anonymousKey ++ "&" else "") ++
    "output=" ++ outputFile

mutual

/-- collectFailedRuleOutputs of the source: a node contributes one entry
per output file matching the rule_output pattern when its uppercased
status is non-empty, differs from VERIFIED and its output list is
non-empty; children are traversed unconditionally with the extended path.
The imperative push accumulator of the source is rendered as list
concatenation in the same pre-order. -/
def collectFailedRuleOutputs (ri : RunInfo) : RuleNode → List String → List FailedRule
  | .mk name status output children, currentPath =>
    let statusU := jsToUpperCase status
    let nextPath := currentPath ++ [name]
    let own :=
      if statusU ≠ "" ∧ statusU ≠ "VERIFIED" ∧ output ≠ [] then
        (output.filter isRuleOutputName).map (fun f =>
          { ruleName := String.intercalate (" > ") nextPath
            status := statusU
            outputFile := f
            url := buildRuleUrl ri f })
      else []
    own ++ collectOverChildren ri children nextPath

/-- The for-loop over children of collectFailedRuleOutputs. -/
def collectOverChildren (ri : RunInfo) : List RuleNode → List String → List FailedRule
  | [], _ => []
  | c :: cs, p => collectFailedRuleOutputs ri c p ++ collectOverChildren ri cs p

end

mutual

/-- All name paths from a node down to one of its descendants (the node
itself included), in the traversal order of the collector. -/
def descPaths : RuleNode → List (List String)
  | .mk name _ _ children =>
    [name] :: (descPathsOver children).map (fun p => name :: p)

/-- descPaths over a list of sibling nodes. -/
def descPathsOver : List RuleNode → List (List String)
  | [] => []
  | c :: cs => descPaths c ++ descPathsOver cs

end

/-! ## Dedup and sort of /analyze-and-fetch

Translated from scripts/certora_auto_server.mjs lines 349-361 (the same
logic appears in scripts/get_failed_rules.mjs lines 168-181). -/

/-- The first maximal run of decimal digits in cs (the regular expression
one-or-more-digits without anchors, leftmost match). -/
def firstDigitRun : List Char → List Char
  | [] => []
  | c :: cs =>
    if c.isDigit then (c :: cs).takeWhile Char.isDigit
    else firstDigitRun cs

/-- Decimal value of a digit run. -/
def digitsToNat (ds : List Char) : Nat :=
  ds.foldl (fun n c => n * 10 + (c.toNat - 48)) 0

/-- parseInt of the first digits match in an output file name, with the
default when there is no match (parseInt of the string 0). The arbitrary
precision of Nat stands in for the floating-point value of JavaScript; the
file names at play carry small indices. -/
def outputFileNum (s : String) : Nat :=
  digitsToNat (firstDigitRun s.data)

/-- The Map-based dedup of the source: iterate the collected entries and
keep an entry only when its outputFile key was not seen before, so the
first occurrence of each key survives, in insertion order. -/
def dedupByOutputFile : List FailedRule → List String → List FailedRule
  | [], _ => []
  | r :: rs, seen =>
    if r.outputFile ∈ seen then dedupByOutputFile rs seen
    else r :: dedupByOutputFile rs (r.outputFile :: seen)

/-- The comparator of the source sort: ascending by the first number in
the outputFile name. -/
def ruleLE (a b : FailedRule) : Prop :=
  outputFileNum a.outputFile ≤ outputFileNum b.outputFile

instance : DecidableRel ruleLE := fun a b =>
  Nat.decLe (outputFileNum a.outputFile) (outputFileNum b.outputFile)

/-- The dedup-then-sort pipeline applied to the collected rules before the
/analyze-and-fetch response is assembled. The stable comparator sort of
JavaScript is rendered as insertion sort with the non-strict comparator. -/
def sortedUniqueRules (collected : List FailedRule) : List FailedRule :=
  List.insertionSort ruleLE (dedupByOutputFile collected [])

/-! ## Process traces

A spawned child process is observed through its event callbacks: stdout
data chunks, stderr data chunks, spawn-level error events, and one final
close event carrying the exit code (null when the process was killed or
never launched, modelled as none). Node guarantees that close fires after
all data events, so a run is a list of mid events followed by the exit
code. -/

/-- A spawn-level error: the code property of the error object. The
message of a not-found error is the fixed Node text; other errors carry
their message. -/
inductive SpawnErr where
  | enoent
  | epipe
  | other (msg : String)
deriving DecidableEq, Repr

/-- Node message text of a spawn error, as interpolated by the handlers. -/
def SpawnErr.msgText : SpawnErr → String
  | .enoent => "spawn codex ENOENT"
  | .epipe => "write EPIPE"
  | .other m => m

/-- One callback firing before the close event. -/
inductive ProcEvent where
  | stdout (chunk : String)
  | stderr (chunk : String)
  | err (e : SpawnErr)
deriving DecidableEq, Repr

/-- A full observed run of one child process. -/
structure ProcRun where
  events : List ProcEvent
  exitCode : Option Int
deriving DecidableEq, Repr

/-- The hasError flag at close time: the error handler sets it on every
spawn-level error event (for every error code). -/
def hadSpawnErr (evs : List ProcEvent) : Bool :=
  evs.any fun e =>
    match e with
    | .err _ => true
    | _ => false

/-- Template interpolation of a nullable exit code: null prints as the
word null. -/
def codeText : Option Int → String
  | some c => toString c
  | none => "null"

/-- Concatenation of all stdout chunks of a run, in order: the fullOutput
accumulator of the /analyze-rule-stream handler. -/
def stdoutText : List ProcEvent → String
  | [] => ""
  | .stdout c :: rest => c ++ stdoutText rest
  | _ :: rest => stdoutText rest

/-- The projectPath handling shared by the handlers: a request field is
used only when present and with non-blank trim. -/
def trimNonempty : Option String → Option String
  | none => none
  | some s => let t := s.trim; if t = "" then none else some t

/-- How one streaming request unfolded after validation: either the try
block threw before the child-process handlers were registered (after
having emitted some info frames), or a child process ran to its close
event. The two are exclusive in the source: once spawn returns, the rest
of the try block only registers callbacks and cannot throw. -/
inductive EndpointRun where
  | earlyError (pre : List String) (msg : String)
  | proc (r : ProcRun)

/-! ## /analyze-rule-stream (certora_auto_server.mjs lines 413-793) -/

/-- Buffering state of the /analyze-rule-stream stdout handler. The
fullOutput accumulator is recovered from the trace by stdoutText and is
not repeated here. -/
structure ARSState where
  preamble : List Char
  seenUserInstructions : Bool
  emittedSystemHeader : Bool
deriving DecidableEq, Repr

/-- The User instructions marker searched for in the preamble. -/
def userInstructionsLit : List Char :=
  ("User instructions:").data

/-- String.lastIndexOf of a newline at positions up to idx inclusive. -/
def lastNlAtMost (cs : List Char) (idx : Nat) : Option Nat :=
  (((cs.take (idx + 1)).enum.filter (fun p => p.2 == '\n')).map (fun p => p.1)).getLast?

/-- String.trimEnd of JavaScript on a character list. -/
def trimEndChars (cs : List Char) : List Char :=
  (cs.reverse.dropWhile Char.isWhitespace).reverse

/-- One firing of the /analyze-rule-stream stdout handler (lines
727-751): before the User instructions marker is seen, chunks are
buffered; when the marker first appears, the text before the start of its
line is emitted once as a single output frame when non-blank; afterwards
nothing is streamed (the final answer is sent only at close). -/
def arsStdoutStep (st : ARSState) (chunk : String) : ARSState × List Event :=
  if st.seenUserInstructions then (st, [])
  else
    let pre := st.preamble ++ chunk.data
    match findSubIdx userInstructionsLit pre with
    | none => ({ st with preamble := pre }, [])
    | some idx =>
      if st.emittedSystemHeader then ({ st with preamble := pre }, [])
      else
        let cutoff :=
          match lastNlAtMost pre idx with
          | some j => j
          | none => idx
        let before := trimEndChars (pre.take cutoff)
        ({ preamble := pre, seenUserInstructions := true, emittedSystemHeader := true },
         if before ≠ [] then [⟨.output, String.mk before⟩] else [])

/-- The /analyze-rule-stream spawn-error handler (lines 758-769): a
not-found error produces a dedicated error frame, a broken pipe produces
no frame, any other error is reported with its message. -/
def arsErrEvents : SpawnErr → List Event
  | .enoent => [⟨.error, "Codex CLI 未找到，请安装 Codex CLI"⟩]
  | .epipe => []
  | .other m => [⟨.error, "进程错误: " ++ m⟩]

/-- Frames produced by the mid-process handlers of /analyze-rule-stream,
threading the stdout buffering state; stderr chunks are forwarded as
error frames. -/
def arsMidEvents (st : ARSState) : List ProcEvent → List Event
  | [] => []
  | .stdout c :: rest =>
    (arsStdoutStep st c).2 ++ arsMidEvents (arsStdoutStep st c).1 rest
  | .stderr c :: rest => ⟨.error, c⟩ :: arsMidEvents st rest
  | .err k :: rest => arsErrEvents k ++ arsMidEvents st rest

/-- The /analyze-rule-stream close handler (lines 771-785): on exit code 0
with no spawn error, the extracted final answer and a success frame;
otherwise an error frame carrying the exit code; in all cases followed by
the complete frame, and the stream is closed. -/
def arsClose (extractAnswer : String → String) (fullOutput : String)
    (hasError : Bool) (code : Option Int) : List Event :=
  (if code = some 0 ∧ hasError = false then
    [⟨.final, extractAnswer fullOutput⟩, ⟨.success, "分析完成"⟩]
   else
    [⟨.error, "进程异常退出，码: " ++ codeText code⟩]) ++ [⟨.complete, ""⟩]

/-- All frames attributable to the child process of one
/analyze-rule-stream request. The answer-extraction heuristic
extractCodexAnswer (lines 12-54) is best-effort text scraping outside the
orchestration contract and is taken as a parameter; no claim inspects the
extracted text. -/
def arsProcessEvents (extractAnswer : String → String) (r : ProcRun) : List Event :=
  arsMidEvents ⟨[], false, false⟩ r.events ++
    arsClose extractAnswer (stdoutText r.events) (hadSpawnErr r.events) r.exitCode

/-- An /analyze-rule-stream request body. content and type are required
strings (empty models absent); a type other than VIOLATED or
SANITY-FAILED leaves the prompt undefined and the try block throws, which
is one source of an earlyError run. -/
structure AnalyzeRuleRequest where
  content : String
  rtype : String
  projectPath : Option String
deriving DecidableEq, Repr

/-- The info frames of /analyze-rule-stream written before the child
process is spawned: the start notice and, for a usable project path, the
working-directory notice. -/
def arsPreamble (req : AnalyzeRuleRequest) : List Event :=
  [(⟨.info, "开始分析..."⟩ : Event)] ++
    (match trimNonempty req.projectPath with
     | some t => [(⟨.info, "设置工作目录: " ++ t⟩ : Event)]
     | none => [])

/-- The full event stream of one /analyze-rule-stream request: none when
validation rejects with status 400 before the stream is opened; otherwise
the info preamble, the process frames and the terminal frames. A thrown
exception inside the try block is converted to an error frame followed by
complete (lines 787-792); the info frames emitted before the throw are
part of the trace. -/
def analyzeRuleStreamEvents (extractAnswer : String → String)
    (req : AnalyzeRuleRequest) (run : EndpointRun) : Option (List Event) :=
  if req.content = "" ∨ req.rtype = "" then none
  else some (
    match run with
    | .earlyError pre m =>
      pre.map (fun s => ⟨.info, s⟩) ++ [⟨.error, "分析错误: " ++ m⟩, ⟨.complete, ""⟩]
    | .proc r => arsPreamble req ++ arsProcessEvents extractAnswer r)

/-! ## /fix-all-stream (certora_auto_server.mjs lines 1135-1242) -/

/-- The /fix-all-stream stdout handler (lines 1199-1208): every chunk is
forwarded as an output frame, and when the chunk contains a result URL the
leftmost match of the chunk is additionally emitted as a url frame. -/
def fasStdoutEvents (chunk : String) : List Event :=
  [⟨.output, chunk⟩] ++
    (match firstUrlMatch chunk.data with
     | some m => [(⟨.url, m⟩ : Event)]
     | none => [])

/-- The /fix-all-stream spawn-error handler (lines 1215-1223): a broken
pipe produces no frame, every other error is reported with its message. -/
def fasErrEvents : SpawnErr → List Event
  | .epipe => []
  | k => [⟨.error, "进程错误: " ++ k.msgText⟩]

/-- Frames produced by the mid-process handlers of /fix-all-stream. -/
def fasMidEvents : List ProcEvent → List Event
  | [] => []
  | .stdout c :: rest => fasStdoutEvents c ++ fasMidEvents rest
  | .stderr c :: rest => ⟨.error, c⟩ :: fasMidEvents rest
  | .err k :: rest => fasErrEvents k ++ fasMidEvents rest

/-- The /fix-all-stream close handler (lines 1225-1234). -/
def fasClose (hasError : Bool) (code : Option Int) : List Event :=
  (if code = some 0 ∧ hasError = false then
    [⟨.success, "修复任务完成"⟩]
   else
    [⟨.error, "修复进程异常退出，退出码: " ++ codeText code⟩]) ++ [⟨.complete, ""⟩]

/-- All frames attributable to the child process of one /fix-all-stream
request. -/
def fasProcessEvents (r : ProcRun) : List Event :=
  fasMidEvents r.events ++ fasClose (hadSpawnErr r.events) r.exitCode

/-- A /fix-all-stream request body: prompt is required (none models
absent or non-string) and must be non-empty. -/
structure FixAllStreamRequest where
  prompt : Option String
  projectPath : Option String
deriving DecidableEq, Repr

/-- The info frames of /fix-all-stream written before the child process
is spawned. -/
def fasPreamble (req : FixAllStreamRequest) : List Event :=
  match trimNonempty req.projectPath with
  | some t => [(⟨.info, "设置工作目录: " ++ t⟩ : Event)]
  | none => [(⟨.info, "开始执行修复（使用自动项目搜索）..."⟩ : Event)]

/-- The full event stream of one /fix-all-stream request: none when
validation rejects with status 400 before the stream is opened. -/
def fixAllStreamEvents (req : FixAllStreamRequest) (run : EndpointRun) :
    Option (List Event) :=
  match req.prompt with
  | none => none
  | some p =>
    if p = "" then none
    else some (
      match run with
      | .earlyError pre m =>
        pre.map (fun s => ⟨.info, s⟩) ++ [⟨.error, "修复错误: " ++ m⟩, ⟨.complete, ""⟩]
      | .proc r => fasPreamble req ++ fasProcessEvents r)

/-! ## /analyze-and-fetch-stream (certora_auto_server.mjs lines 178-289) -/

/-- Outcome of the scraping attempt of one /analyze-and-fetch-stream
request. The browser automation is an external collaborator; the events
the handler itself writes are determined by which of the three paths is
taken. On a throw inside the try block the info frames already written
are carried in pre (every frame written there before the terminal section
uses the default info type). On the success path the progress narration
frames are carried in infos. On the no-progress-data path the response
listener never parsed progress data, so exactly the two leading info
frames precede the terminal error frames. -/
inductive ScrapeOutcome where
  | thrown (pre : List String) (msg : String)
  | noProgress
  | ok (infos : List String)

/-- The full event stream of one /analyze-and-fetch-stream request: none
when the url is absent (status 400, no stream). On the no-progress path
the handler writes the error notice twice (once through sendProgress and
once directly, lines 238-239) and closes the stream with no complete
frame; on a throw it writes the error twice as well (lines 285-286) and
closes with no complete frame; only the success path ends with the
complete frame (line 280). -/
def analyzeAndFetchStreamEvents (url : Option String) (outcome : ScrapeOutcome) :
    Option (List Event) :=
  match url with
  | none => none
  | some u => some (
    match outcome with
    | .thrown pre m =>
      [(⟨.info, "分析URL: " ++ u⟩ : Event)] ++ pre.map (fun s => ⟨.info, s⟩) ++
        [⟨.error, "错误: " ++ m⟩, ⟨.error, m⟩]
    | .noProgress =>
      [⟨.info, "分析URL: " ++ u⟩, ⟨.info, "访问页面..."⟩,
       ⟨.error, "未找到progress数据"⟩, ⟨.error, "未找到progress数据"⟩]
    | .ok infos =>
      [⟨.info, "分析URL: " ++ u⟩, ⟨.info, "访问页面..."⟩] ++
        infos.map (fun s => ⟨.info, s⟩) ++
        [⟨.success, "分析完成！"⟩, ⟨.complete, ""⟩])

/-! ## /fix-all and /generate-fix-prompt (lines 1245-1330 and 797-1132) -/

/-- Result of a non-streaming JSON endpoint: the HTTP status class of the
response and the prompts of the child processes spawned while serving
it. -/
structure JsonEndpointResult where
  statusCode : Nat
  spawnedPrompts : List String
deriving DecidableEq, Repr

/-- Null-byte cleanup applied to every prompt before spawning. -/
def removeNullBytes (s : String) : String :=
  String.mk (s.data.filter (fun c => c ≠ Char.ofNat 0))

/-- The prompt built by /fix-all (lines 1259-1265): all analyses joined by
a separator into one combined instruction. -/
def fixAllPromptText (analyses : List String) : String :=
  "基于以下CVL分析结果，生成修复建议和代码改进：\n\n" ++
    String.intercalate ("\n\n---\n\n") analyses ++
    "\n\n请提供具体的修复步骤和代码建议。"

/-- The /fix-all handler (lines 1245-1330): requests whose analyses field
is absent, not an array (both modelled by none) or empty are rejected
with status 400 before anything is spawned; otherwise exactly one child
process is spawned with the combined prompt. -/
def fixAllHandler (analyses : Option (List String)) : JsonEndpointResult :=
  match analyses with
  | none => ⟨400, []⟩
  | some l =>
    if l.isEmpty then ⟨400, []⟩
    else ⟨200, [removeNullBytes (fixAllPromptText l)]⟩

/-- The /generate-fix-prompt handler (lines 797-1132): the same
validation, after which a prompt text is assembled and returned in the
JSON response; no child process is ever spawned by this endpoint. The
large constant prompt template is not repeated here since no claim
inspects it. -/
def generateFixPromptHandler (analyses : Option (List String)) : JsonEndpointResult :=
  match analyses with
  | none => ⟨400, []⟩
  | some l =>
    if l.isEmpty then ⟨400, []⟩
    else ⟨200, []⟩

/-! ## Verification Retry Loop and Session Controller

The sequential repair endpoint (documented in the repository README as
the /fix-sequential-stream route, with its Verification Retry Loop and
Workflow Session Controller) is not present in the provided server
sources; the definitions below are modelled from the specification. -/

/-- Modelled from the spec: ClassificationResult of one verifier
invocation — a result URL was found (Success), a syntax or compile error
indicator was found (SyntaxError), or neither (OtherFailure). -/
inductive ClassificationResult where
  | success (url : String)
  | syntaxError
  | otherFailure
deriving DecidableEq, Repr

/-- Modelled from the spec: terminal outcome of runVerification. -/
inductive VerifyOutcome where
  | succeeded (url : String)
  | skipped
  | aborted
  | failedNonSyntax
deriving DecidableEq, Repr

/-- Modelled from the spec: the Verification Retry Loop (spec section 4.4)
of the sequential repair endpoint, absent from the provided sources.
abort i is the abortRequested flag as observed before attempt i;
verifier i is the classification of the output of attempt i; repairOk j
is the per-item outcome of the j-th syntax-repair invocation of the
Repair Step Runner, consulted but — per the spec — never branched on
(the loop re-verifies regardless of the repair outcome). fuel bounds the
unrolling because the spec imposes no iteration bound other than abort;
the result is the terminal outcome (none when fuel ran out) together with
the number of repair invocations performed so far. -/
def runVerificationLoop (abort : Nat → Bool) (verifier : Nat → ClassificationResult)
    (repairOk : Nat → Bool) : Nat → Nat → Nat → Option VerifyOutcome × Nat
  | 0, _, reps => (none, reps)
  | fuel + 1, i, reps =>
    if abort i then (some .aborted, reps)
    else
      match verifier i with
      | .success u => (some (.succeeded u), reps)
      | .otherFailure => (some .failedNonSyntax, reps)
      | .syntaxError =>
        let _ := repairOk reps
        runVerificationLoop abort verifier repairOk fuel (i + 1) (reps + 1)

/-- Modelled from the spec: runVerification — an absent config path skips
verification, otherwise the retry loop starts at attempt 0 with no repair
invocation performed yet. -/
def runVerification (confPresent : Bool) (abort : Nat → Bool)
    (verifier : Nat → ClassificationResult) (repairOk : Nat → Bool)
    (fuel : Nat) : Option VerifyOutcome × Nat :=
  if confPresent then runVerificationLoop abort verifier repairOk fuel 0 0
  else (some .skipped, 0)

/-- Modelled from the spec: SessionState of the Workflow Session
Controller — the abort flag, the running flag and whether the streaming
client is still connected. -/
structure SessionState where
  abortRequested : Bool
  isRunning : Bool
  clientConnected : Bool
deriving DecidableEq, Repr

/-- Modelled from the spec (section 4.5): the client-disconnect handler of
the Session Controller only marks the channel as gone and triggers
killCurrent on the Process Supervisor (the returned flag); it does not
touch abortRequested and does not stop the workflow. -/
def handleClientDisconnect (s : SessionState) : SessionState × Bool :=
  ({ s with clientConnected := false }, true)

/-- Modelled from the spec (section 4.3): the Repair Step Runner event
markers. For each item, in order: the abort flag is checked first (no new
process starts once abort was observed), a start marker is emitted, a
per-item outcome event follows regardless of the result, and a next
marker separates non-final items. n is the total item count, i the index
of the next item, and the recursion runs over the count of remaining
items. -/
def runItemsEvents (abort : Nat → Bool) (itemOk : Nat → Bool) (n : Nat) :
    Nat → Nat → List Event
  | 0, _ => []
  | rem + 1, i =>
    if abort i then []
    else
      [(⟨.info, "start " ++ toString (i + 1) ++ "/" ++ toString n⟩ : Event),
       (if itemOk i then ⟨.success, "done " ++ toString (i + 1) ++ "/" ++ toString n⟩
        else ⟨.error, "failed " ++ toString (i + 1) ++ "/" ++ toString n⟩)] ++
      (if rem = 0 then [] else [(⟨.info, "next " ++ toString (i + 2) ++ "/" ++ toString n⟩ : Event)]) ++
      runItemsEvents abort itemOk n rem (i + 1)

/-- Modelled from the spec: the terminal frames of one workflow run, one
status per outcome followed by the single complete frame; when fuel ran
out the unrolled model still closes the stream. -/
def terminalEvents : Option VerifyOutcome × Nat → List Event
  | (some (.succeeded u), _) => [⟨.url, u⟩, ⟨.status, "completed-with-url"⟩, ⟨.complete, ""⟩]
  | (some .skipped, _) => [⟨.status, "completed-without-verification"⟩, ⟨.complete, ""⟩]
  | (some .aborted, _) => [⟨.status, "aborted-by-user"⟩, ⟨.complete, ""⟩]
  | (some .failedNonSyntax, _) => [⟨.status, "completed-with-non-syntax-failure"⟩, ⟨.complete, ""⟩]
  | (none, _) => [⟨.complete, ""⟩]

/-- Modelled from the spec: one full workflow run driven by the Session
Controller from state s — when abort was already requested the run ends
at once with the aborted status, otherwise the Repair Step Runner drains
the items and the Verification Retry Loop follows; the driver reads the
abort flag and the oracles but never reads clientConnected, which is the
designed decoupling of the workflow from the streaming channel. -/
def sessionRunEvents (s : SessionState) (items : List String) (confPresent : Bool)
    (abort : Nat → Bool) (itemOk : Nat → Bool)
    (verifier : Nat → ClassificationResult) (repairOk : Nat → Bool)
    (fuel : Nat) : List Event :=
  if s.abortRequested then [⟨.status, "aborted-by-user"⟩, ⟨.complete, ""⟩]
  else
    runItemsEvents abort itemOk items.length items.length 0 ++
      terminalEvents (runVerification confPresent abort verifier repairOk fuel)

/-! ## Helper lemmas -/

/-- A pattern occurs in any list that ends with it. -/
theorem findSubIdx_isSome_of_suffix (pat : List Char) :
    ∀ pre : List Char, (findSubIdx pat (pre ++ pat)).isSome = true := by
  intro pre
  induction pre with
  | nil =>
    rw [List.nil_append]
    cases pat with
    | nil => simp [findSubIdx, startsWithChars]
    | cons c cs => simp [findSubIdx, startsWithChars, List.take_length]
  | cons c pre ih =>
    rw [List.cons_append, findSubIdx]
    split
    · simp
    · simpa using ih

/-- A string that ends with pat contains pat as a substring. -/
theorem containsSub_of_suffix (pat pre : String) :
    containsSub pat (pre ++ pat) = true := by
  have h : (pre ++ pat).data = pre.data ++ pat.data := by
    simp [String.data_append]
  simp only [containsSub, h]
  exact findSubIdx_isSome_of_suffix pat.data pre.data

/-- The last element of a concatenation whose right part has a last
element. -/
theorem getLast?_append_right {α : Type} (a b : List α) (x : α)
    (h : b.getLast? = some x) : (a ++ b).getLast? = some x := by
  have hb : b ≠ [] := by
    rintro rfl
    simp at h
  rw [List.getLast?_append_of_ne_nil a hb, h]

/-- completeCount distributes over concatenation. -/
theorem completeCount_append (a b : List Event) :
    completeCount (a ++ b) = completeCount a + completeCount b := by
  simp [completeCount, List.filter_append]

/-- A list of mid-type events carries no complete frame. -/
theorem completeCount_eq_zero (es : List Event)
    (h : ∀ e ∈ es, e.type ≠ EventType.complete) : completeCount es = 0 := by
  simp only [completeCount, List.length_eq_zero]
  rw [List.filter_eq_nil_iff]
  intro e he
  simpa using h e he

/-- The common shape of every opened stream of the server: mid-type
frames, then terminal frames other than complete, then the single
complete frame; such a stream carries exactly one complete frame and it
is the last frame. -/
theorem terminal_shape (mid body : List Event)
    (hm : ∀ e ∈ mid, midType e.type = true)
    (hb : ∀ e ∈ body, e.type ≠ EventType.complete) :
    completeCount (mid ++ (body ++ [(⟨.complete, ""⟩ : Event)])) = 1 ∧
    (mid ++ (body ++ [(⟨.complete, ""⟩ : Event)])).getLast? = some (⟨.complete, ""⟩ : Event) := by
  constructor
  · rw [completeCount_append, completeCount_append]
    rw [completeCount_eq_zero mid, completeCount_eq_zero body hb]
    · rfl
    · intro e he
      have := hm e he
      intro hc
      rw [hc] at this
      simp [midType] at this
  · exact getLast?_append_right _ _ _ (getLast?_append_right _ _ _ rfl)

/-! ## C2: URL extraction -/

/-- firstUrlMatch finds the match of least starting position: there is a
position p whose suffix matches and every earlier position does not. -/
theorem firstUrlMatch_leftmost (cs : List Char) (m : String)
    (h : firstUrlMatch cs = some m) :
    ∃ p, urlMatchAt (cs.drop p) = some m ∧
      ∀ q, q < p → urlMatchAt (cs.drop q) = none := by
  induction cs with
  | nil => simp [firstUrlMatch] at h
  | cons c cs ih =>
    rw [firstUrlMatch] at h
    cases hm : urlMatchAt (c :: cs) with
    | some m0 =>
      rw [hm] at h
      refine ⟨0, ?_, ?_⟩
      · simpa [hm] using h
      · intro q hq; omega
    | none =>
      rw [hm] at h
      obtain ⟨p, hp, hlt⟩ := ih h
      refine ⟨p + 1, by simpa using hp, ?_⟩
      intro q hq
      cases q with
      | zero => simpa using hm
      | succ q => simpa using hlt q (by omega)

/-- Claim C2 (amended): the /fix-all-stream stdout handler emits, for a
data chunk containing a result URL, a url frame carrying the leftmost
match of the chunk — the match at the least starting position; within a
single text the first occurrence, not the last, wins. -/
theorem fix_all_stream_first_url (chunk : String) (m : String)
    (h : firstUrlMatch chunk.data = some m) :
    Event.mk EventType.url m ∈ fasStdoutEvents chunk ∧
    ∃ p, urlMatchAt (chunk.data.drop p) = some m ∧
      ∀ q, q < p → urlMatchAt (chunk.data.drop q) = none := by
  constructor
  · simp [fasStdoutEvents, h]
  · exact firstUrlMatch_leftmost chunk.data m h

/-- Witness for C2: a concrete chunk with one URL. -/
theorem fix_all_stream_first_url_witness :
    Event.mk EventType.url ("https://prover.certora.com/output/1/a") ∈
      fasStdoutEvents ("see https://prover.certora.com/output/1/a") ∧
    ∃ p, urlMatchAt (("see https://prover.certora.com/output/1/a").data.drop p) =
        some ("https://prover.certora.com/output/1/a") ∧
      ∀ q, q < p →
        urlMatchAt (("see https://prover.certora.com/output/1/a").data.drop q) = none :=
  fix_all_stream_first_url ("see https://prover.certora.com/output/1/a")
    ("https://prover.certora.com/output/1/a") (by decide)

/-- Counterexample for C2 as stated: a single output text holding two
well-formed result URLs; the extraction of the source returns the first
occurrence while the specification demands the last, and the two differ. -/
theorem url_extraction_first_not_last :
    firstUrlMatch ("xx https://prover.certora.com/output/111/aaa done https://prover.certora.com/output/222/bbb").data =
      some ("https://prover.certora.com/output/111/aaa") ∧
    lastUrlMatch ("xx https://prover.certora.com/output/111/aaa done https://prover.certora.com/output/222/bbb").data =
      some ("https://prover.certora.com/output/222/bbb") ∧
    ("https://prover.certora.com/output/111/aaa" : String) ≠
      ("https://prover.certora.com/output/222/bbb") := by
  refine ⟨by decide, by decide, by decide⟩

/-! ## C4: repair invocations of /fix-all -/

/-- Claim C4 (amended): for every non-empty analyses list, the /fix-all
handler accepts the request and spawns exactly one external agent
process, whose prompt is the cleaned combination of all items joined in
insertion order; there is never more than one process per request. -/
theorem fix_all_spawns_once (l : List String) (h : l ≠ []) :
    (fixAllHandler (some l)).statusCode = 200 ∧
    (fixAllHandler (some l)).spawnedPrompts = [removeNullBytes (fixAllPromptText l)] ∧
    (fixAllHandler (some l)).spawnedPrompts.length = 1 := by
  cases l with
  | nil => exact absurd rfl h
  | cons a as => exact ⟨rfl, rfl, rfl⟩

/-- Witness for C4 (amended) at a concrete two-item request. -/
theorem fix_all_spawns_once_witness :
    (fixAllHandler (some [("analysis one"), ("analysis two")])).statusCode = 200 ∧
    (fixAllHandler (some [("analysis one"), ("analysis two")])).spawnedPrompts =
      [removeNullBytes (fixAllPromptText [("analysis one"), ("analysis two")])] ∧
    (fixAllHandler (some [("analysis one"), ("analysis two")])).spawnedPrompts.length = 1 :=
  fix_all_spawns_once [("analysis one"), ("analysis two")] (by decide)

/-- Counterexample for C4 as stated: a request with two work items leads
to one spawned process, not two — the handler joins all items into a
single instruction instead of invoking the agent once per item. -/
theorem fix_all_not_once_per_item :
    (fixAllHandler (some [("analysis one"), ("analysis two")])).spawnedPrompts.length = 1 ∧
    ¬ (fixAllHandler (some [("analysis one"), ("analysis two")])).spawnedPrompts.length = 2 := by
  exact ⟨rfl, by decide⟩

/-! ## C5: the verification retry loop (spec-modelled) -/

/-- Claim C5: in the Verification Retry Loop, an attempt classified
SyntaxError performs exactly one repair invocation and is always followed
by a re-run of the verifier at the next attempt index; an attempt
classified OtherFailure returns FailedNonSyntax at once with no repair
invocation; and the control flow never depends on the outcomes of the
repair invocations themselves. -/
theorem retry_loop_policy (abort : Nat → Bool)
    (verifier : Nat → ClassificationResult) (r1 r2 : Nat → Bool)
    (fuel i reps : Nat) :
    (abort i = false → verifier i = ClassificationResult.syntaxError →
      runVerificationLoop abort verifier r1 (fuel + 1) i reps =
        runVerificationLoop abort verifier r1 fuel (i + 1) (reps + 1)) ∧
    (abort i = false → verifier i = ClassificationResult.otherFailure →
      runVerificationLoop abort verifier r1 (fuel + 1) i reps =
        (some VerifyOutcome.failedNonSyntax, reps)) ∧
    (runVerificationLoop abort verifier r1 fuel i reps =
      runVerificationLoop abort verifier r2 fuel i reps) ∧
    (abort 0 = false → verifier 0 = ClassificationResult.otherFailure →
      runVerification true abort verifier r1 (fuel + 1) =
        (some VerifyOutcome.failedNonSyntax, 0)) := by
  refine ⟨?_, ?_, ?_, ?_⟩
  · intro ha hv
    simp [runVerificationLoop, ha, hv]
  · intro ha hv
    simp [runVerificationLoop, ha, hv]
  · induction fuel generalizing i reps with
    | zero => rfl
    | succ n ih =>
      rw [runVerificationLoop, runVerificationLoop]
      split
      · rfl
      · cases verifier i with
        | success u => rfl
        | otherFailure => rfl
        | syntaxError => exact ih (i + 1) (reps + 1)
  · intro ha hv
    simp [runVerification, runVerificationLoop, ha, hv]

/-- Witness for C5: a verifier failing non-syntactically on the first
attempt yields FailedNonSyntax with zero repair invocations, and a first
attempt classified SyntaxError steps to the second attempt with exactly
one repair performed. -/
theorem retry_loop_policy_witness :
    runVerification true (fun _ => false) (fun _ => ClassificationResult.otherFailure)
        (fun _ => false) 4 = (some VerifyOutcome.failedNonSyntax, 0) ∧
    runVerificationLoop (fun _ => false)
        (fun i => if i = 0 then ClassificationResult.syntaxError
                  else ClassificationResult.success ("X")) (fun _ => true) 4 0 0 =
      runVerificationLoop (fun _ => false)
        (fun i => if i = 0 then ClassificationResult.syntaxError
                  else ClassificationResult.success ("X")) (fun _ => true) 3 1 1 :=
  ⟨(retry_loop_policy (fun _ => false) (fun _ => ClassificationResult.otherFailure)
      (fun _ => false) (fun _ => true) 3 0 0).2.2.2 rfl rfl,
   (retry_loop_policy (fun _ => false)
      (fun i => if i = 0 then ClassificationResult.syntaxError
                else ClassificationResult.success ("X"))
      (fun _ => true) (fun _ => true) 3 0 0).1 rfl rfl⟩

/-! ## C6: empty or absent items are rejected -/

/-- Claim C6: a run-start request whose items list is absent, not an
array, or empty is rejected with status 400 and no external process is
spawned — for both the /fix-all runner and the /generate-fix-prompt
endpoint; neither endpoint opens an event stream. -/
theorem empty_items_rejected (a : Option (List String))
    (h : a = none ∨ a = some []) :
    fixAllHandler a = ⟨400, []⟩ ∧ generateFixPromptHandler a = ⟨400, []⟩ := by
  rcases h with h | h <;> subst h <;> exact ⟨rfl, rfl⟩

/-- Witness for C6 at the concrete empty-array request. -/
theorem empty_items_rejected_witness :
    fixAllHandler (some []) = ⟨400, []⟩ ∧
    generateFixPromptHandler (some []) = ⟨400, []⟩ :=
  empty_items_rejected (some []) (Or.inr rfl)

/-! ## C8: client disconnect does not abort (spec-modelled) -/

/-- The terminal frames always end with the single complete frame. -/
theorem terminalEvents_last (v : Option VerifyOutcome × Nat) :
    (terminalEvents v).getLast? = some (⟨.complete, ""⟩ : Event) := by
  rcases v with ⟨o, n⟩
  cases o with
  | none => rfl
  | some out => cases out <;> rfl

/-- Claim C8: the client-disconnect handler never sets abortRequested and
never stops the workflow — it only closes the channel and triggers
killCurrent; a run driven from the disconnected state emits exactly the
frames of the run from the connected state and still reaches its normal
terminal complete frame. -/
theorem disconnect_does_not_abort (s : SessionState) (items : List String)
    (confPresent : Bool) (abort itemOk : Nat → Bool)
    (verifier : Nat → ClassificationResult) (repairOk : Nat → Bool) (fuel : Nat) :
    (handleClientDisconnect s).1.abortRequested = s.abortRequested ∧
    (handleClientDisconnect s).1.isRunning = s.isRunning ∧
    (handleClientDisconnect s).2 = true ∧
    sessionRunEvents (handleClientDisconnect s).1 items confPresent abort itemOk
        verifier repairOk fuel =
      sessionRunEvents s items confPresent abort itemOk verifier repairOk fuel ∧
    (sessionRunEvents s items confPresent abort itemOk verifier repairOk fuel).getLast? =
      some (⟨.complete, ""⟩ : Event) := by
  refine ⟨rfl, rfl, rfl, rfl, ?_⟩
  rw [sessionRunEvents]
  split
  · rfl
  · exact getLast?_append_right _ _ _ (terminalEvents_last _)

/-! ## Stream-event classification lemmas -/

/-- The stdout buffering handler of /analyze-rule-stream only ever emits
output frames. -/
theorem arsStdoutStep_types (st : ARSState) (c : String) :
    ∀ e ∈ (arsStdoutStep st c).2, e.type = EventType.output := by
  intro e he
  unfold arsStdoutStep at he
  split at he
  · simp at he
  · dsimp only at he
    cases hf : findSubIdx userInstructionsLit (st.preamble ++ c.data) with
    | none =>
      rw [hf] at he
      simp at he
    | some idx =>
      rw [hf] at he
      split at he
      · simp at he
      · split at he <;> simp_all

/-- The spawn-error handler of /analyze-rule-stream only ever emits error
frames. -/
theorem arsErrEvents_types (k : SpawnErr) :
    ∀ e ∈ arsErrEvents k, e.type = EventType.error := by
  intro e he
  cases k <;> simp_all [arsErrEvents]

/-- Every frame written by the mid-process handlers of
/analyze-rule-stream has a mid type: the terminal frame types never occur
before close. -/
theorem arsMid_types (evs : List ProcEvent) :
    ∀ (st : ARSState), ∀ e ∈ arsMidEvents st evs, midType e.type = true := by
  induction evs with
  | nil =>
    intro st e he
    simp [arsMidEvents] at he
  | cons pe rest ih =>
    intro st e he
    cases pe with
    | stdout c =>
      rw [arsMidEvents] at he
      rcases List.mem_append.mp he with h | h
      · rw [arsStdoutStep_types st c e h]; rfl
      · exact ih _ e h
    | stderr c =>
      rw [arsMidEvents] at he
      rcases List.mem_cons.mp he with h | h
      · subst h; rfl
      · exact ih _ e h
    | err k =>
      rw [arsMidEvents] at he
      rcases List.mem_append.mp he with h | h
      · rw [arsErrEvents_types k e h]; rfl
      · exact ih _ e h

/-- The stdout handler of /fix-all-stream only emits output and url
frames. -/
theorem fasStdout_types (c : String) :
    ∀ e ∈ fasStdoutEvents c, midType e.type = true := by
  intro e he
  unfold fasStdoutEvents at he
  rcases List.mem_append.mp he with h | h
  · rcases List.mem_singleton.mp h with rfl; rfl
  · cases hm : firstUrlMatch c.data with
    | some m =>
      rw [hm] at h
      rcases List.mem_singleton.mp h with rfl; rfl
    | none =>
      rw [hm] at h
      simp at h

/-- The spawn-error handler of /fix-all-stream only emits error frames. -/
theorem fasErrEvents_types (k : SpawnErr) :
    ∀ e ∈ fasErrEvents k, e.type = EventType.error := by
  intro e he
  cases k <;> simp_all [fasErrEvents]

/-- Every frame written by the mid-process handlers of /fix-all-stream
has a mid type. -/
theorem fasMid_types (evs : List ProcEvent) :
    ∀ e ∈ fasMidEvents evs, midType e.type = true := by
  induction evs with
  | nil =>
    intro e he
    simp [fasMidEvents] at he
  | cons pe rest ih =>
    intro e he
    cases pe with
    | stdout c =>
      rw [fasMidEvents] at he
      rcases List.mem_append.mp he with h | h
      · exact fasStdout_types c e h
      · exact ih e h
    | stderr c =>
      rw [fasMidEvents] at he
      rcases List.mem_cons.mp he with h | h
      · subst h; rfl
      · exact ih e h
    | err k =>
      rw [fasMidEvents] at he
      rcases List.mem_append.mp he with h | h
      · rw [fasErrEvents_types k e h]; rfl
      · exact ih e h

/-- The preamble frames of /analyze-rule-stream are info frames. -/
theorem arsPreamble_types (req : AnalyzeRuleRequest) :
    ∀ e ∈ arsPreamble req, midType e.type = true := by
  intro e he
  unfold arsPreamble at he
  rcases List.mem_append.mp he with h | h
  · rcases List.mem_singleton.mp h with rfl; rfl
  · cases hm : trimNonempty req.projectPath with
    | some t =>
      rw [hm] at h
      rcases List.mem_singleton.mp h with rfl; rfl
    | none =>
      rw [hm] at h
      simp at h

/-- The preamble frames of /fix-all-stream are info frames. -/
theorem fasPreamble_types (req : FixAllStreamRequest) :
    ∀ e ∈ fasPreamble req, midType e.type = true := by
  intro e he
  unfold fasPreamble at he
  split at he <;> rcases List.mem_singleton.mp he with rfl <;> rfl

/-- Shape of the /analyze-rule-stream close frames: a non-complete body
followed by the single complete frame. -/
theorem arsClose_shape (ex : String → String) (f : String) (hE : Bool)
    (code : Option Int) :
    ∃ body, arsClose ex f hE code = body ++ [(⟨.complete, ""⟩ : Event)] ∧
      ∀ e ∈ body, e.type ≠ EventType.complete := by
  rw [arsClose]
  split
  · refine ⟨_, rfl, ?_⟩
    intro e he
    rcases List.mem_cons.mp he with h | h
    · subst h; simp
    · rcases List.mem_singleton.mp h with rfl; simp
  · refine ⟨_, rfl, ?_⟩
    intro e he
    rcases List.mem_singleton.mp he with rfl; simp

/-- Shape of the /fix-all-stream close frames. -/
theorem fasClose_shape (hE : Bool) (code : Option Int) :
    ∃ body, fasClose hE code = body ++ [(⟨.complete, ""⟩ : Event)] ∧
      ∀ e ∈ body, e.type ≠ EventType.complete := by
  rw [fasClose]
  split
  · refine ⟨_, rfl, ?_⟩
    intro e he
    rcases List.mem_singleton.mp he with rfl; simp
  · refine ⟨_, rfl, ?_⟩
    intro e he
    rcases List.mem_singleton.mp he with rfl; simp

/-- The terminal-shape lemma in the two-prefix form used by the stream
endpoints: preamble, mid-process frames, close body, complete. -/
theorem terminal_shape2 (mid1 mid2 body : List Event)
    (hm1 : ∀ e ∈ mid1, midType e.type = true)
    (hm2 : ∀ e ∈ mid2, midType e.type = true)
    (hb : ∀ e ∈ body, e.type ≠ EventType.complete) :
    completeCount (mid1 ++ (mid2 ++ (body ++ [(⟨.complete, ""⟩ : Event)]))) = 1 ∧
    (mid1 ++ (mid2 ++ (body ++ [(⟨.complete, ""⟩ : Event)]))).getLast? =
      some (⟨.complete, ""⟩ : Event) := by
  have hm : ∀ e ∈ mid1 ++ mid2, midType e.type = true := by
    intro e he
    rcases List.mem_append.mp he with h | h
    · exact hm1 e h
    · exact hm2 e h
  have h := terminal_shape (mid1 ++ mid2) body hm hb
  rwa [List.append_assoc] at h

/-- A success frame appears among the /analyze-rule-stream frames of a
process run exactly when the exit code is 0 and no spawn-level error
occurred. -/
theorem ars_success_iff (ex : String → String) (r : ProcRun) :
    (∃ m, Event.mk EventType.success m ∈ arsProcessEvents ex r) ↔
      (r.exitCode = some 0 ∧ hadSpawnErr r.events = false) := by
  constructor
  · rintro ⟨m, hm⟩
    rcases List.mem_append.mp hm with h | h
    · have := arsMid_types r.events _ _ h
      simp [midType] at this
    · rw [arsClose] at h
      split at h
      · assumption
      · simp at h
  · intro hc
    refine ⟨"分析完成", List.mem_append_right _ ?_⟩
    rw [arsClose]
    rw [if_pos hc]
    simp

/-- A success frame appears among the /fix-all-stream frames of a process
run exactly when the exit code is 0 and no spawn-level error occurred. -/
theorem fas_success_iff (r : ProcRun) :
    (∃ m, Event.mk EventType.success m ∈ fasProcessEvents r) ↔
      (r.exitCode = some 0 ∧ hadSpawnErr r.events = false) := by
  constructor
  · rintro ⟨m, hm⟩
    rcases List.mem_append.mp hm with h | h
    · have := fasMid_types r.events _ h
      simp [midType] at this
    · rw [fasClose] at h
      split at h
      · assumption
      · simp at h
  · intro hc
    refine ⟨"修复任务完成", List.mem_append_right _ ?_⟩
    rw [fasClose]
    rw [if_pos hc]
    simp

/-- The /analyze-rule-stream process frames always end with the complete
frame. -/
theorem ars_last_complete (ex : String → String) (r : ProcRun) :
    (arsProcessEvents ex r).getLast? = some (⟨.complete, ""⟩ : Event) := by
  obtain ⟨body, hsh, _⟩ :=
    arsClose_shape ex (stdoutText r.events) (hadSpawnErr r.events) r.exitCode
  rw [arsProcessEvents, hsh]
  exact getLast?_append_right _ _ _ (getLast?_append_right _ _ _ rfl)

/-- The /fix-all-stream process frames always end with the complete
frame. -/
theorem fas_last_complete (r : ProcRun) :
    (fasProcessEvents r).getLast? = some (⟨.complete, ""⟩ : Event) := by
  obtain ⟨body, hsh, _⟩ := fasClose_shape (hadSpawnErr r.events) r.exitCode
  rw [fasProcessEvents, hsh]
  exact getLast?_append_right _ _ _ (getLast?_append_right _ _ _ rfl)

/-- A spawn-error event in the trace makes the hasError flag true at
close time. -/
theorem hadSpawnErr_of_mem (k : SpawnErr) (evs : List ProcEvent)
    (h : ProcEvent.err k ∈ evs) : hadSpawnErr evs = true :=
  List.any_eq_true.mpr ⟨ProcEvent.err k, h, rfl⟩

/-- Every frame emitted by the /analyze-rule-stream spawn-error handler
for an error in the trace appears among the mid-process frames, whatever
the buffering state. -/
theorem arsMid_err_subset (k : SpawnErr) (evs : List ProcEvent)
    (h : ProcEvent.err k ∈ evs) :
    ∀ (st : ARSState), ∀ e ∈ arsErrEvents k, e ∈ arsMidEvents st evs := by
  induction evs with
  | nil => simp at h
  | cons pe rest ih =>
    intro st e he
    rcases List.mem_cons.mp h with hh | hh
    · subst hh
      rw [arsMidEvents]
      exact List.mem_append_left _ he
    · cases pe with
      | stdout c =>
        rw [arsMidEvents]
        exact List.mem_append_right _ (ih hh _ e he)
      | stderr c =>
        rw [arsMidEvents]
        exact List.mem_cons_of_mem _ (ih hh st e he)
      | err k2 =>
        rw [arsMidEvents]
        exact List.mem_append_right _ (ih hh st e he)

/-- Every frame emitted by the /fix-all-stream spawn-error handler for an
error in the trace appears among the mid-process frames. -/
theorem fasMid_err_subset (k : SpawnErr) (evs : List ProcEvent)
    (h : ProcEvent.err k ∈ evs) :
    ∀ e ∈ fasErrEvents k, e ∈ fasMidEvents evs := by
  induction evs with
  | nil => simp at h
  | cons pe rest ih =>
    intro e he
    rcases List.mem_cons.mp h with hh | hh
    · subst hh
      rw [fasMidEvents]
      exact List.mem_append_left _ he
    · cases pe with
      | stdout c =>
        rw [fasMidEvents]
        exact List.mem_append_right _ (ih hh e he)
      | stderr c =>
        rw [fasMidEvents]
        exact List.mem_cons_of_mem _ (ih hh e he)
      | err k2 =>
        rw [fasMidEvents]
        exact List.mem_append_right _ (ih hh e he)

/-! ## C1: terminal complete frames -/

/-- Claim C1 (amended): the Codex streaming endpoints
/analyze-rule-stream and /fix-all-stream send exactly one complete frame
per opened stream, always last, on every termination path — normal close
with any exit code, spawn errors, and a top-level exception converted to
an error frame followed by complete. The scrape endpoint
/analyze-and-fetch-stream sends the complete frame only on its success
path; its no-progress-data path and its exception path close the stream
with no complete frame at all. -/
theorem push_stream_terminal_complete :
    (∀ (ex : String → String) (req : AnalyzeRuleRequest) (run : EndpointRun)
        (evs : List Event), analyzeRuleStreamEvents ex req run = some evs →
      completeCount evs = 1 ∧ evs.getLast? = some (⟨.complete, ""⟩ : Event)) ∧
    (∀ (req : FixAllStreamRequest) (run : EndpointRun) (evs : List Event),
        fixAllStreamEvents req run = some evs →
      completeCount evs = 1 ∧ evs.getLast? = some (⟨.complete, ""⟩ : Event)) ∧
    (∀ (u : String) (infos : List String) (evs : List Event),
        analyzeAndFetchStreamEvents (some u) (ScrapeOutcome.ok infos) = some evs →
      completeCount evs = 1 ∧ evs.getLast? = some (⟨.complete, ""⟩ : Event)) ∧
    (∀ (u : String) (pre : List String) (msg : String) (evs : List Event),
        analyzeAndFetchStreamEvents (some u) (ScrapeOutcome.thrown pre msg) = some evs →
      completeCount evs = 0) ∧
    (∀ (u : String) (evs : List Event),
        analyzeAndFetchStreamEvents (some u) ScrapeOutcome.noProgress = some evs →
      completeCount evs = 0) := by
  have hmap : ∀ (pre : List String),
      ∀ e ∈ pre.map (fun s => (⟨.info, s⟩ : Event)), midType e.type = true := by
    intro pre e he
    obtain ⟨s, _, rfl⟩ := List.mem_map.mp he
    rfl
  refine ⟨?_, ?_, ?_, ?_, ?_⟩
  · intro ex req run evs h
    rw [analyzeRuleStreamEvents.eq_def] at h
    split at h
    · simp at h
    · cases run with
      | earlyError pre m =>
        dsimp only at h
        rcases Option.some.inj h with rfl
        exact terminal_shape2 (pre.map (fun s => ⟨.info, s⟩)) []
          [(⟨.error, "分析错误: " ++ m⟩ : Event)] (hmap pre) (by simp)
          (by intro e he; rcases List.mem_singleton.mp he with rfl; simp)
      | proc r =>
        dsimp only at h
        rcases Option.some.inj h with rfl
        obtain ⟨body, hsh, hb⟩ :=
          arsClose_shape ex (stdoutText r.events) (hadSpawnErr r.events) r.exitCode
        unfold arsProcessEvents
        rw [hsh]
        exact terminal_shape2 (arsPreamble req) (arsMidEvents ⟨[], false, false⟩ r.events)
          body (arsPreamble_types req) (arsMid_types r.events _) hb
  · intro req run evs h
    rw [fixAllStreamEvents.eq_def] at h
    cases hp : req.prompt with
    | none => rw [hp] at h; simp at h
    | some p =>
      rw [hp] at h
      dsimp only at h
      split at h
      · simp at h
      · cases run with
        | earlyError pre m =>
          dsimp only at h
          rcases Option.some.inj h with rfl
          exact terminal_shape2 (pre.map (fun s => ⟨.info, s⟩)) []
            [(⟨.error, "修复错误: " ++ m⟩ : Event)] (hmap pre) (by simp)
            (by intro e he; rcases List.mem_singleton.mp he with rfl; simp)
        | proc r =>
          dsimp only at h
          rcases Option.some.inj h with rfl
          obtain ⟨body, hsh, hb⟩ := fasClose_shape (hadSpawnErr r.events) r.exitCode
          unfold fasProcessEvents
          rw [hsh]
          exact terminal_shape2 (fasPreamble req) (fasMidEvents r.events) body
            (fasPreamble_types req) (fasMid_types r.events) hb
  · intro u infos evs h
    rcases Option.some.inj h with rfl
    exact terminal_shape2 [⟨.info, "分析URL: " ++ u⟩, ⟨.info, "访问页面..."⟩]
      (infos.map (fun s => ⟨.info, s⟩)) [(⟨.success, "分析完成！"⟩ : Event)]
      (by intro e he
          rcases List.mem_cons.mp he with rfl | he
          · rfl
          · rcases List.mem_singleton.mp he with rfl; rfl)
      (hmap infos)
      (by intro e he; rcases List.mem_singleton.mp he with rfl; simp)
  · intro u pre msg evs h
    rcases Option.some.inj h with rfl
    refine completeCount_eq_zero _ ?_
    intro e he
    rcases List.mem_cons.mp he with rfl | he
    · simp
    · rcases List.mem_append.mp he with he | he
      · obtain ⟨s, _, rfl⟩ := List.mem_map.mp he
        simp
      · rcases List.mem_cons.mp he with rfl | he
        · simp
        · rcases List.mem_singleton.mp he with rfl; simp
  · intro u evs h
    rcases Option.some.inj h with rfl
    refine completeCount_eq_zero _ ?_
    intro e he
    rcases List.mem_cons.mp he with rfl | he
    · simp
    · rcases List.mem_cons.mp he with rfl | he
      · simp
      · rcases List.mem_cons.mp he with rfl | he
        · simp
        · rcases List.mem_singleton.mp he with rfl; simp

/-- Witness for C1 (amended): a concrete /analyze-rule-stream request
whose try block threw; the resulting stream has exactly one complete
frame and it is last. -/
theorem push_stream_terminal_complete_witness :
    completeCount [(⟨.error, "分析错误: boom"⟩ : Event), (⟨.complete, ""⟩ : Event)] = 1 ∧
    ([(⟨.error, "分析错误: boom"⟩ : Event), (⟨.complete, ""⟩ : Event)]).getLast? =
      some (⟨.complete, ""⟩ : Event) :=
  push_stream_terminal_complete.1 id ⟨("c"), ("VIOLATED"), none⟩
    (EndpointRun.earlyError [] ("boom")) _ (by decide)

/-- Counterexample for C1 as stated: the no-progress-data termination
path of /analyze-and-fetch-stream opens the stream (four frames are
written) yet closes it with zero complete frames, the last frame being an
error frame. -/
theorem analyze_fetch_stream_missing_complete :
    (analyzeAndFetchStreamEvents (some ("u")) ScrapeOutcome.noProgress).map completeCount =
      some 0 ∧
    (analyzeAndFetchStreamEvents (some ("u")) ScrapeOutcome.noProgress).map List.length =
      some 4 ∧
    ((analyzeAndFetchStreamEvents (some ("u")) ScrapeOutcome.noProgress).bind
        List.getLast?).map Event.type = some EventType.error := by
  refine ⟨by decide, by decide, by decide⟩

/-! ## C3: exit code and the eventual outcome -/

/-- Claim C3: for both stream endpoints, a success frame for the spawned
process is emitted exactly when the exit code is 0 and no spawn-level
error occurred; on any non-zero exit code an error frame is emitted whose
message contains the exit code, and no success frame is emitted for that
process. -/
theorem proc_exit_outcome (ex : String → String) (r : ProcRun) :
    ((∃ m, Event.mk EventType.success m ∈ arsProcessEvents ex r) ↔
      (r.exitCode = some 0 ∧ hadSpawnErr r.events = false)) ∧
    ((∃ m, Event.mk EventType.success m ∈ fasProcessEvents r) ↔
      (r.exitCode = some 0 ∧ hadSpawnErr r.events = false)) ∧
    (∀ c : Int, r.exitCode = some c → c ≠ 0 →
      Event.mk EventType.error ("进程异常退出，码: " ++ toString c) ∈
          arsProcessEvents ex r ∧
      Event.mk EventType.error ("修复进程异常退出，退出码: " ++ toString c) ∈
          fasProcessEvents r ∧
      containsSub (toString c) ("进程异常退出，码: " ++ toString c) = true ∧
      containsSub (toString c) ("修复进程异常退出，退出码: " ++ toString c) = true ∧
      (∀ m, Event.mk EventType.success m ∉ arsProcessEvents ex r) ∧
      (∀ m, Event.mk EventType.success m ∉ fasProcessEvents r)) := by
  refine ⟨ars_success_iff ex r, fas_success_iff r, ?_⟩
  intro c hc hne
  have hcond : ¬(r.exitCode = some 0 ∧ hadSpawnErr r.events = false) := by
    rintro ⟨h0, _⟩
    rw [hc] at h0
    exact hne (Option.some.inj h0)
  refine ⟨?_, ?_, ?_, ?_, ?_, ?_⟩
  · refine List.mem_append_right _ ?_
    rw [arsClose, if_neg hcond, hc]
    simp [codeText]
  · refine List.mem_append_right _ ?_
    rw [fasClose, if_neg hcond, hc]
    simp [codeText]
  · exact containsSub_of_suffix (toString c) ("进程异常退出，码: ")
  · exact containsSub_of_suffix (toString c) ("修复进程异常退出，退出码: ")
  · intro m hm
    exact hcond ((ars_success_iff ex r).mp ⟨m, hm⟩)
  · intro m hm
    exact hcond ((fas_success_iff r).mp ⟨m, hm⟩)

/-- Witness for C3: a process exiting 0 with no spawn error yields a
success frame, and a process exiting 2 yields the error frame carrying
the code. -/
theorem proc_exit_outcome_witness :
    (∃ m, Event.mk EventType.success m ∈ arsProcessEvents id ⟨[], some 0⟩) ∧
    Event.mk EventType.error ("进程异常退出，码: " ++ toString (2 : Int)) ∈
      arsProcessEvents id ⟨[ProcEvent.stderr ("oops")], some 2⟩ ∧
    Event.mk EventType.error ("修复进程异常退出，退出码: " ++ toString (2 : Int)) ∈
      fasProcessEvents ⟨[ProcEvent.stderr ("oops")], some 2⟩ :=
  ⟨(proc_exit_outcome id ⟨[], some 0⟩).1.mpr (by decide),
   ((proc_exit_outcome id ⟨[ProcEvent.stderr ("oops")], some 2⟩).2.2 2 rfl
      (by decide)).1,
   ((proc_exit_outcome id ⟨[ProcEvent.stderr ("oops")], some 2⟩).2.2 2 rfl
      (by decide)).2.1⟩

/-! ## C7: spawn failure resolves, never hangs -/

/-- Claim C7: when spawning the external binary fails at the OS level
(binary not found), the failure is reported as an error frame on the push
channel; no success frame is emitted for that spawn, and the stream still
reaches its final complete frame — the close handler fires and the
awaiting caller observes the resolved negative outcome instead of
hanging. -/
theorem spawn_failure_resolves (ex : String → String) (r : ProcRun)
    (h : ProcEvent.err SpawnErr.enoent ∈ r.events) :
    Event.mk EventType.error ("Codex CLI 未找到，请安装 Codex CLI") ∈
        arsProcessEvents ex r ∧
    (∀ m, Event.mk EventType.success m ∉ arsProcessEvents ex r) ∧
    (arsProcessEvents ex r).getLast? = some (⟨.complete, ""⟩ : Event) ∧
    Event.mk EventType.error ("进程错误: spawn codex ENOENT") ∈ fasProcessEvents r ∧
    (∀ m, Event.mk EventType.success m ∉ fasProcessEvents r) ∧
    (fasProcessEvents r).getLast? = some (⟨.complete, ""⟩ : Event) := by
  have hErr := hadSpawnErr_of_mem SpawnErr.enoent r.events h
  have hcond : ¬(r.exitCode = some 0 ∧ hadSpawnErr r.events = false) := by
    rintro ⟨_, h0⟩
    rw [hErr] at h0
    exact Bool.noConfusion h0
  refine ⟨?_, ?_, ars_last_complete ex r, ?_, ?_, fas_last_complete r⟩
  · refine List.mem_append_left _ ?_
    exact arsMid_err_subset SpawnErr.enoent r.events h _ _ (by simp [arsErrEvents])
  · intro m hm
    exact hcond ((ars_success_iff ex r).mp ⟨m, hm⟩)
  · refine List.mem_append_left _ ?_
    exact fasMid_err_subset SpawnErr.enoent r.events h _
      (by simp [fasErrEvents, SpawnErr.msgText])
  · intro m hm
    exact hcond ((fas_success_iff r).mp ⟨m, hm⟩)

/-- Witness for C7: the concrete run whose only observed event is the
not-found spawn error, closing with a null exit code. -/
theorem spawn_failure_resolves_witness :
    Event.mk EventType.error ("Codex CLI 未找到，请安装 Codex CLI") ∈
        arsProcessEvents id ⟨[ProcEvent.err SpawnErr.enoent], none⟩ ∧
    (∀ m, Event.mk EventType.success m ∉
        arsProcessEvents id ⟨[ProcEvent.err SpawnErr.enoent], none⟩) ∧
    (arsProcessEvents id ⟨[ProcEvent.err SpawnErr.enoent], none⟩).getLast? =
      some (⟨.complete, ""⟩ : Event) ∧
    Event.mk EventType.error ("进程错误: spawn codex ENOENT") ∈
        fasProcessEvents ⟨[ProcEvent.err SpawnErr.enoent], none⟩ ∧
    (∀ m, Event.mk EventType.success m ∉
        fasProcessEvents ⟨[ProcEvent.err SpawnErr.enoent], none⟩) ∧
    (fasProcessEvents ⟨[ProcEvent.err SpawnErr.enoent], none⟩).getLast? =
      some (⟨.complete, ""⟩ : Event) :=
  spawn_failure_resolves id ⟨[ProcEvent.err SpawnErr.enoent], none⟩ (by decide)

/-! ## C9: soundness of collectFailedRuleOutputs -/

mutual

/-- Every entry collected from a node carries an uppercased non-empty
non-VERIFIED status, an output file matching the rule_output pattern, and
a rule name that joins the names along a root-to-node path. -/
theorem collect_entry_sound (ri : RunInfo) (node : RuleNode) (path : List String)
    (e : FailedRule) (he : e ∈ collectFailedRuleOutputs ri node path) :
    e.status ≠ "" ∧ e.status ≠ "VERIFIED" ∧ isRuleOutputName e.outputFile = true ∧
    ∃ p ∈ descPaths node, e.ruleName = String.intercalate (" > ") (path ++ p) :=
  match node, he with
  | .mk name status output children, he => by
    rw [collectFailedRuleOutputs] at he
    rcases List.mem_append.mp he with hown | hch
    · split at hown
      next hcond =>
        obtain ⟨f, hf, rfl⟩ := List.mem_map.mp hown
        have hfr := List.mem_filter.mp hf
        refine ⟨hcond.1, hcond.2.1, hfr.2, ⟨[name], ?_, rfl⟩⟩
        rw [descPaths]
        exact List.mem_cons_self _ _
      next => simp at hown
    · obtain ⟨hs, hv, ho, q, hq, hr⟩ :=
        collectOver_entry_sound ri children (path ++ [name]) e hch
      refine ⟨hs, hv, ho, ⟨name :: q, ?_, ?_⟩⟩
      · rw [descPaths]
        exact List.mem_cons_of_mem _ (List.mem_map.mpr ⟨q, hq, rfl⟩)
      · rw [hr, List.append_assoc]
        rfl

/-- The per-child analogue of collect_entry_sound. -/
theorem collectOver_entry_sound (ri : RunInfo) (nodes : List RuleNode)
    (pth : List String) (e : FailedRule)
    (he : e ∈ collectOverChildren ri nodes pth) :
    e.status ≠ "" ∧ e.status ≠ "VERIFIED" ∧ isRuleOutputName e.outputFile = true ∧
    ∃ q ∈ descPathsOver nodes, e.ruleName = String.intercalate (" > ") (pth ++ q) :=
  match nodes, he with
  | [], he => by simp [collectOverChildren] at he
  | c :: cs, he => by
    rw [collectOverChildren] at he
    rcases List.mem_append.mp he with h | h
    · obtain ⟨hs, hv, ho, q, hq, hr⟩ := collect_entry_sound ri c pth e h
      refine ⟨hs, hv, ho, q, ?_, hr⟩
      rw [descPathsOver]
      exact List.mem_append_left _ hq
    · obtain ⟨hs, hv, ho, q, hq, hr⟩ := collectOver_entry_sound ri cs pth e h
      refine ⟨hs, hv, ho, q, ?_, hr⟩
      rw [descPathsOver]
      exact List.mem_append_right _ hq

end

/-- Claim C9: every entry produced by collectFailedRuleOutputs has a
non-empty uppercased status different from VERIFIED, an outputFile
matching the rule_output pattern, and a ruleName joining the node names
from the root of the walk to the contributing node; and a node whose
status uppercases to VERIFIED contributes no entries itself while its
children are still traversed. -/
theorem collect_failed_rules_spec (ri : RunInfo) (node : RuleNode)
    (path : List String) :
    (∀ e ∈ collectFailedRuleOutputs ri node path,
      e.status ≠ "" ∧ e.status ≠ "VERIFIED" ∧ isRuleOutputName e.outputFile = true ∧
      ∃ p ∈ descPaths node, e.ruleName = String.intercalate (" > ") (path ++ p)) ∧
    (jsToUpperCase node.status = "VERIFIED" →
      collectFailedRuleOutputs ri node path =
        collectOverChildren ri node.children (path ++ [node.name])) := by
  constructor
  · intro e he
    exact collect_entry_sound ri node path e he
  · intro hv
    cases node with
    | mk name status output children =>
      dsimp only [RuleNode.status] at hv
      rw [collectFailedRuleOutputs]
      dsimp only [RuleNode.children, RuleNode.name]
      rw [if_neg]
      · rfl
      · rintro ⟨_, h2, _⟩
        exact h2 hv

/-- A run-info value for the witness. -/
def sampleRunInfo : RunInfo :=
  ⟨("https://prover.certora.com"), ("R"), ("O"), ("K")⟩

/-- A tree with a VERIFIED root and a failing child for the witness. -/
def sampleTree : RuleNode :=
  RuleNode.mk ("Top") ("Verified") []
    [RuleNode.mk ("ruleA") ("FAILED") [("rule_output_3.json"), ("other.txt")] []]

/-- The entry collected from the failing child of sampleTree. -/
def sampleEntry : FailedRule :=
  ⟨("Top > ruleA"), ("FAILED"), ("rule_output_3.json"),
   buildRuleUrl sampleRunInfo ("rule_output_3.json")⟩

/-- Evaluation of the collector on the sample tree: the VERIFIED root
contributes nothing, the failing child contributes one entry and its
non-matching output file is filtered out. -/
theorem collect_sample_eval :
    collectFailedRuleOutputs sampleRunInfo sampleTree [] = [sampleEntry] := by
  rw [sampleTree, collectFailedRuleOutputs, collectOverChildren,
    collectFailedRuleOutputs, collectOverChildren]
  rw [if_neg (by decide), if_pos (by decide)]
  rw [sampleEntry, sampleRunInfo]
  simp +decide [isRuleOutputName, buildRuleUrl]

/-- Witness for C9: the entry contributed through a VERIFIED root
satisfies all the stated properties. -/
theorem collect_failed_rules_spec_witness :
    sampleEntry.status ≠ "" ∧ sampleEntry.status ≠ "VERIFIED" ∧
    isRuleOutputName sampleEntry.outputFile = true ∧
    ∃ p ∈ descPaths sampleTree,
      sampleEntry.ruleName = String.intercalate (" > ") ([] ++ p) :=
  (collect_failed_rules_spec sampleRunInfo sampleTree []).1 sampleEntry
    (by rw [collect_sample_eval]; exact List.mem_singleton.mpr rfl)

/-! ## C10: dedup and sort of the /analyze-and-fetch response -/

/-- Every entry surviving the dedup has a key unseen so far, and is the
first entry of the input carrying its key. -/
theorem dedup_spec (rs : List FailedRule) : ∀ (seen : List String) (e : FailedRule),
    e ∈ dedupByOutputFile rs seen →
    e.outputFile ∉ seen ∧
      rs.find? (fun x => x.outputFile == e.outputFile) = some e := by
  induction rs with
  | nil =>
    intro seen e he
    simp [dedupByOutputFile] at he
  | cons r rs ih =>
    intro seen e he
    rw [dedupByOutputFile] at he
    split at he
    next hseen =>
      obtain ⟨hnot, hfind⟩ := ih seen e he
      have hne : ¬(r.outputFile == e.outputFile) = true := by
        rw [beq_iff_eq]
        intro hEq
        exact hnot (hEq ▸ hseen)
      refine ⟨hnot, ?_⟩
      rw [@List.find?_cons_of_neg _ (fun x => x.outputFile == e.outputFile) r rs hne]
      exact hfind
    next hseen =>
      rcases List.mem_cons.mp he with rfl | he
      · refine ⟨hseen, ?_⟩
        exact List.find?_cons_of_pos _ (by simp)
      · obtain ⟨hnot, hfind⟩ := ih _ e he
        have hne1 : e.outputFile ≠ r.outputFile := fun hEq =>
          hnot (by rw [hEq]; exact List.mem_cons_self _ _)
        have hnot2 : e.outputFile ∉ seen := fun hx =>
          hnot (List.mem_cons_of_mem _ hx)
        refine ⟨hnot2, ?_⟩
        rw [@List.find?_cons_of_neg _ (fun x => x.outputFile == e.outputFile) r rs
          (by rw [beq_iff_eq]; exact fun hEq => hne1 hEq.symm)]
        exact hfind

/-- The dedup output has pairwise distinct outputFile keys. -/
theorem dedup_nodup (rs : List FailedRule) : ∀ (seen : List String),
    (dedupByOutputFile rs seen).Pairwise (fun a b => a.outputFile ≠ b.outputFile) := by
  induction rs with
  | nil =>
    intro seen
    simp [dedupByOutputFile]
  | cons r rs ih =>
    intro seen
    rw [dedupByOutputFile]
    split
    · exact ih seen
    · refine List.Pairwise.cons ?_ (ih _)
      intro e he hEq
      exact (dedup_spec rs _ e he).1 (by rw [← hEq]; exact List.mem_cons_self _ _)

instance : IsTotal FailedRule ruleLE :=
  ⟨fun a b => Nat.le_total (outputFileNum a.outputFile) (outputFileNum b.outputFile)⟩

instance : IsTrans FailedRule ruleLE :=
  ⟨fun _ _ _ => Nat.le_trans⟩

/-- A character list without digits has no digit run. -/
theorem firstDigitRun_eq_nil (cs : List Char)
    (h : ∀ c ∈ cs, c.isDigit = false) : firstDigitRun cs = [] := by
  induction cs with
  | nil => rfl
  | cons c cs ih =>
    rw [firstDigitRun, if_neg]
    · exact ih fun x hx => h x (List.mem_cons_of_mem _ hx)
    · simp [h c (List.mem_cons_self _ _)]

/-- Claim C10: the rules array of the /analyze-and-fetch response has at
most one entry per distinct outputFile — the first collected occurrence
is the one kept — and is sorted in non-decreasing order of the first
integer of each outputFile, entries with no digits sorting as 0. -/
theorem analyze_fetch_rules_spec (collected : List FailedRule) :
    (sortedUniqueRules collected).Pairwise
        (fun a b => a.outputFile ≠ b.outputFile) ∧
    (∀ e ∈ sortedUniqueRules collected,
      collected.find? (fun x => x.outputFile == e.outputFile) = some e) ∧
    (sortedUniqueRules collected).Sorted ruleLE ∧
    (∀ s : String, (∀ ch ∈ s.data, ch.isDigit = false) → outputFileNum s = 0) := by
  have hperm : List.Perm (sortedUniqueRules collected)
      (dedupByOutputFile collected []) :=
    List.perm_insertionSort ruleLE (dedupByOutputFile collected [])
  refine ⟨?_, ?_, ?_, ?_⟩
  · exact List.Pairwise.perm (dedup_nodup collected []) hperm.symm
      (fun h => fun hEq => h hEq.symm)
  · intro e he
    exact (dedup_spec collected [] e (hperm.mem_iff.mp he)).2
  · exact List.sorted_insertionSort ruleLE (dedupByOutputFile collected [])
  · intro s hs
    unfold outputFileNum
    rw [firstDigitRun_eq_nil s.data hs]
    rfl

/-- Witness for C10: a concrete collected list with a duplicate key; the
kept entry for rule_output_2 is the first input occurrence, and a
digit-free name sorts as 0. -/
theorem analyze_fetch_rules_spec_witness :
    ([(⟨("a"), ("F"), ("rule_output_5.json"), ("u")⟩ : FailedRule),
      ⟨("b"), ("F"), ("rule_output_2.json"), ("v")⟩,
      ⟨("c"), ("F"), ("rule_output_5.json"), ("w")⟩] : List FailedRule).find?
        (fun x => x.outputFile ==
          (⟨("b"), ("F"), ("rule_output_2.json"), ("v")⟩ : FailedRule).outputFile) =
      some ⟨("b"), ("F"), ("rule_output_2.json"), ("v")⟩ ∧
    outputFileNum ("nodigits.json") = 0 :=
  ⟨(analyze_fetch_rules_spec
      [⟨("a"), ("F"), ("rule_output_5.json"), ("u")⟩,
       ⟨("b"), ("F"), ("rule_output_2.json"), ("v")⟩,
       ⟨("c"), ("F"), ("rule_output_5.json"), ("w")⟩]).2.1
      ⟨("b"), ("F"), ("rule_output_2.json"), ("v")⟩ (by decide),
   (analyze_fetch_rules_spec []).2.2.2 ("nodigits.json") (by decide)⟩

end CertoraServer
